import Mathlib

/-!
Shallow embedding of `src/bloom-cache.py` (class `BloomCache`): a bloom
filter in front of a small in-process dict cache and a networked redis
backing store.  Python dicts are modelled as insertion-ordered association
lists with distinct keys, the bit array as a function `Nat → Bool`, the
redis client as an abstract response function returning `Except` (an
exception value models a raised network error), and the library hash
functions (`mmh3.hash`, `hashlib.md5`) as parameters of the configuration.
-/

namespace BloomCache

/-- Error raised by a failing redis call (network error, timeout). -/
inductive RedisError where
  | connection
deriving DecidableEq, Repr

/-- Python dict membership and lookup: `key in d` / `d[key]`, first (unique)
entry with that key. -/
def dictGet : List (String × String) → String → Option String
  | [], _ => none
  | kv :: d, k => if kv.1 = k then some kv.2 else dictGet d k

/-- Python `key in d`. -/
def dictHas (d : List (String × String)) (k : String) : Bool :=
  (dictGet d k).isSome

/-- Python dict assignment `d[k] = v`: overwrite in place if present
(keeping the entry position), append otherwise. -/
def dictSet : List (String × String) → String → String → List (String × String)
  | [], k, v => [(k, v)]
  | kv :: d, k, v => if kv.1 = k then (k, v) :: d else kv :: dictSet d k v

/-- Python `del d[k]`. -/
def dictDel (d : List (String × String)) (k : String) : List (String × String) :=
  d.filter (fun kv => kv.1 ≠ k)

/-- Python string comparison `a < b`: lexicographic on Unicode code
points. -/
def strLtAux : List Char → List Char → Bool
  | [], [] => false
  | [], _ :: _ => true
  | _ :: _, [] => false
  | c :: a, d :: b =>
    if c.toNat < d.toNat then true
    else if d.toNat < c.toNat then false
    else strLtAux a b

/-- Python string comparison on `String`. -/
def strLt (a b : String) : Bool :=
  strLtAux a.data b.data

/-- Python `min(keys)` over the key strings (lexicographic string order),
`none` on an empty dict (where Python would raise `ValueError`). -/
def minKey : List (String × String) → Option String
  | [] => none
  | kv :: d => some ((d.map Prod.fst).foldl (fun acc s => if strLt s acc then s else acc) kv.1)

/-- Construction-time data of a `BloomCache` instance: the bit-array size
`self.size`, the hash count `self.hash_count`, the local-cache bound
`self.max_local` (100 in the source), and the two library hash functions. -/
structure Config where
  size : Nat
  hash_count : Nat
  max_local : Nat
  mmh3Hash : String → Nat → Int
  md5Hex : String → String

/-- Mutable state of a `BloomCache` instance: the bloom bit array and the
in-process dict `self.local_cache`. -/
structure State where
  bloom : Nat → Bool
  local_cache : List (String × String)

/-- `_get_hash_positions`: the `hash_count` seeded hashes of `item`, reduced
modulo `size` (Python `%` on a positive modulus is `Int.emod`). -/
def _get_hash_positions (cfg : Config) (item : String) : List Nat :=
  (List.range cfg.hash_count).map (fun i => ((cfg.mmh3Hash item i) % (cfg.size : Int)).toNat)

/-- The loop `for pos in positions: bloom[pos] = 1`. -/
def setBits (ps : List Nat) (b : Nat → Bool) : Nat → Bool :=
  ps.foldl (fun acc pos => Function.update acc pos true) b

/-- `add`: set every hash position of `key` in the bit array. -/
def add (cfg : Config) (b : Nat → Bool) (key : String) : Nat → Bool :=
  setBits (_get_hash_positions cfg key) b

/-- `might_exist`: true iff every hash position of `key` is set. -/
def might_exist (cfg : Config) (b : Nat → Bool) (key : String) : Bool :=
  (_get_hash_positions cfg key).all (fun pos => b pos)

/-- Result of one `get` call: the returned value (`Except.error` models an
uncaught redis exception propagating to the caller), the state after the
call, and how many redis `get` calls were made. -/
structure GetResult where
  outcome : Except RedisError (Option String)
  state : State
  redisCalls : Nat

/-- The local-dict insertion on a redis hit (source lines 63 to 68): when
`len(local_cache) >= max_local`, delete the entry at `min(keys)` first,
then assign `local_cache[key] = r`.  (With an empty dict and
`max_local = 0`, where Python `min([])` would raise, the deletion is a
no-op; the source always has `max_local = 100`.) -/
def cacheInsert (cfg : Config) (d : List (String × String)) (key r : String) :
    List (String × String) :=
  if cfg.max_local ≤ d.length then
    match minKey d with
    | some oldest => dictSet (dictDel d oldest) key r
    | none => dictSet d key r
  else dictSet d key r

/-- `get(prompt)`: local dict first, then the bloom pre-check, then redis;
a redis hit (a non-empty string, by Python truthiness) is inserted into the
local dict via `cacheInsert`.  The redis client is the response function
`rds`; the source has no try/except, so a redis exception ends the call
with the state unchanged. -/
def get (cfg : Config) (rds : String → Except RedisError (Option String))
    (st : State) (prompt : String) : GetResult :=
  let key := cfg.md5Hex prompt
  if dictHas st.local_cache key then
    { outcome := .ok (dictGet st.local_cache key), state := st, redisCalls := 0 }
  else if might_exist cfg st.bloom key = false then
    { outcome := .ok none, state := st, redisCalls := 0 }
  else
    match rds ("cache:" ++ key) with
    | .error e => { outcome := .error e, state := st, redisCalls := 1 }
    | .ok none => { outcome := .ok none, state := st, redisCalls := 1 }
    | .ok (some r) =>
      if r = "" then
        { outcome := .ok (some r), state := st, redisCalls := 1 }
      else
        { outcome := .ok (some r),
          state := { st with local_cache := cacheInsert cfg st.local_cache key r },
          redisCalls := 1 }

/-- `set(prompt, response, ttl)`: bloom `add` first, then `redis.setex`,
then the local dict write (with no capacity check).  `rset` is the redis
`setex` client; when it raises, the local dict line never runs. -/
def set (cfg : Config) (rset : String → Nat → String → Except RedisError Unit)
    (st : State) (prompt response : String) (ttl : Nat) :
    Except RedisError Unit × State :=
  let key := cfg.md5Hex prompt
  let st1 : State := { st with bloom := add cfg st.bloom key }
  match rset ("cache:" ++ key) ttl response with
  | .error e => (.error e, st1)
  | .ok _ => (.ok (), { st1 with local_cache := dictSet st1.local_cache key response })

/-- One public operation on the instance. -/
inductive Op where
  | opAdd (key : String)
  | opGet (rds : String → Except RedisError (Option String)) (prompt : String)
  | opSet (rset : String → Nat → String → Except RedisError Unit)
      (prompt response : String) (ttl : Nat)

/-- Effect of one operation on the state. -/
def step (cfg : Config) (st : State) : Op → State
  | .opAdd k => { st with bloom := add cfg st.bloom k }
  | .opGet rds p => (get cfg rds st p).state
  | .opSet rset p r t => (set cfg rset st p r t).2

/-- Run a sequence of operations. -/
def run (cfg : Config) (st : State) (ops : List Op) : State :=
  ops.foldl (step cfg) st

/-- `_optimal_size` as written in the source:
`int(-(n * hash(p)) / (hash(0.6185)))`, where `hash` is the Python builtin
hash (NOT a logarithm).  `hashP` and `hash06185` stand for the integers
`hash(p)` and `hash(0.6185)`; for every float in (0, 1) the Python hash is
a positive integer below 2^61 - 1.  The float true division followed by
`int(...)` truncation is modelled as exact integer T-division `Int.div`
(float rounding of these quotients cannot change their sign, which is all
the theorems below use). -/
def _optimal_size (n hashP hash06185 : Int) : Int :=
  Int.tdiv (-(n * hashP)) hash06185

/-- `_optimal_hash_count` as written in the source: `int((m / n) * hash(2))`
with `hash(2) = 2`, i.e. the truncation of `2 * m / n`. -/
def _optimal_hash_count (m n : Int) : Int :=
  Int.tdiv (m * 2) n

/-- The bit-array size the spec requires:
`m = ceil(-n * ln(p) / (ln 2)^2)`. -/
noncomputable def spec_optimal_size (n : Int) (p : Real) : Int :=
  ⌈(-(n : Real) * Real.log p) / (Real.log 2) ^ 2⌉

/-! ### Helper lemmas about the bit array -/

theorem setBits_apply (ps : List Nat) (b : Nat → Bool) (p : Nat) :
    setBits ps b p = (decide (p ∈ ps) || b p) := by
  induction ps generalizing b with
  | nil => simp [setBits]
  | cons q ps ih =>
    simp only [setBits, List.foldl_cons] at *
    rw [ih]
    by_cases h : p = q <;> simp [Function.update_apply, h, List.mem_cons]

theorem add_apply (cfg : Config) (b : Nat → Bool) (key : String) (p : Nat) :
    add cfg b key p = (decide (p ∈ _get_hash_positions cfg key) || b p) :=
  setBits_apply _ b p

theorem add_mono (cfg : Config) (b : Nat → Bool) (key : String) (p : Nat)
    (h : b p = true) : add cfg b key p = true := by
  simp [add_apply, h]

theorem get_bloom (cfg : Config) (rds : String → Except RedisError (Option String))
    (st : State) (prompt : String) : (get cfg rds st prompt).state.bloom = st.bloom := by
  by_cases h1 : dictHas st.local_cache (cfg.md5Hex prompt) = true
  · simp [get, h1]
  · cases hm : might_exist cfg st.bloom (cfg.md5Hex prompt) with
    | false => simp [get, h1, hm]
    | true =>
      rcases hr : rds ("cache:" ++ cfg.md5Hex prompt) with e | r
      · simp [get, h1, hm, hr]
      · rcases r with _ | r
        · simp [get, h1, hm, hr]
        · by_cases he : r = "" <;> simp [get, h1, hm, hr, he]

theorem set_bloom (cfg : Config) (rset : String → Nat → String → Except RedisError Unit)
    (st : State) (prompt response : String) (ttl : Nat) :
    (set cfg rset st prompt response ttl).2.bloom =
      add cfg st.bloom (cfg.md5Hex prompt) := by
  rcases hr : rset ("cache:" ++ cfg.md5Hex prompt) ttl response with e | u <;>
    simp [set, hr]

theorem step_bloom_mono (cfg : Config) (st : State) (op : Op) (p : Nat)
    (h : st.bloom p = true) : (step cfg st op).bloom p = true := by
  cases op with
  | opAdd k => exact add_mono cfg st.bloom k p h
  | opGet rds pr => rw [step, get_bloom]; exact h
  | opSet rset pr r t => rw [step, set_bloom]; exact add_mono cfg st.bloom _ p h

theorem run_bloom_mono (cfg : Config) (ops : List Op) (st : State) (p : Nat)
    (h : st.bloom p = true) : (run cfg st ops).bloom p = true := by
  induction ops generalizing st with
  | nil => exact h
  | cons op ops ih =>
    simp only [run, List.foldl_cons] at *
    exact ih _ (step_bloom_mono cfg st op p h)

theorem might_exist_add_self (cfg : Config) (b : Nat → Bool) (x : String) :
    might_exist cfg (add cfg b x) x = true := by
  simp [might_exist, List.all_eq_true, add_apply]
  intro p hp
  simp [hp]

/-! ### Concrete instances used by witnesses and counterexamples -/

/-- Concrete configuration used by the evaluation witnesses: identity
fingerprint, seed-valued mmh3, the source bound `max_local = 100`. -/
def cfg0 : Config :=
  { size := 8, hash_count := 2, max_local := 100,
    mmh3Hash := fun _ i => (i : Int), md5Hex := fun s => s }

/-- The all-ones bit array. -/
def bAllTrue : Nat → Bool := fun _ => true

/-- The all-zeroes bit array. -/
def bNone : Nat → Bool := fun _ => false

/-- Fresh instance state: empty filter, empty local dict. -/
def stEmpty : State := { bloom := bNone, local_cache := [] }

/-- State with every filter bit set and an empty local dict. -/
def stAll : State := { bloom := bAllTrue, local_cache := [] }

/-- Redis `setex` client that always succeeds. -/
def rsetOk : String → Nat → String → Except RedisError Unit := fun _ _ _ => .ok ()

/-- Redis `setex` client that always raises. -/
def rsetFail : String → Nat → String → Except RedisError Unit :=
  fun _ _ _ => .error .connection

/-- Redis `get` client that always misses. -/
def rdsMiss : String → Except RedisError (Option String) := fun _ => .ok none

/-- Redis `get` client that always raises. -/
def rdsFail : String → Except RedisError (Option String) := fun _ => .error .connection

/-! ### Claim theorems -/

/-- Claim C3: once `add x` has run on the filter, `might_exist x` returns
true after every further sequence of operations on the instance: hash
positions are deterministic per key and no operation ever clears a set bit. -/
theorem C3_no_false_negatives (cfg : Config) (st : State) (x : String) (ops : List Op) :
    might_exist cfg (run cfg (step cfg st (.opAdd x)) ops).bloom x = true := by
  rw [might_exist, List.all_eq_true]
  intro p hp
  apply run_bloom_mono
  rw [step]
  have := might_exist_add_self cfg st.bloom x
  rw [might_exist, List.all_eq_true] at this
  exact this p hp

/-- Claim C10: for every key and every filter state, `add` is idempotent
(adding a key twice leaves exactly the bit array of adding it once), and
adding a key never turns `might_exist` of any key from true to false. -/
theorem C10_add_idempotent_mono (cfg : Config) (b : Nat → Bool) (x : String) :
    add cfg (add cfg b x) x = add cfg b x ∧
      ∀ y : String, might_exist cfg b y = true →
        might_exist cfg (add cfg b x) y = true := by
  constructor
  · funext p
    by_cases hp : p ∈ _get_hash_positions cfg x <;> simp [add_apply, hp]
  · intro y h
    rw [might_exist, List.all_eq_true] at h ⊢
    intro p hp
    exact add_mono cfg b x p (h p hp)

theorem dictGet_dictSet_self (d : List (String × String)) (k v : String) :
    dictGet (dictSet d k v) k = some v := by
  induction d with
  | nil => simp [dictSet, dictGet]
  | cons kv d ih =>
    by_cases h : kv.1 = k <;> simp [dictSet, dictGet, h, ih]

theorem dictHas_dictSet_self (d : List (String × String)) (k v : String) :
    dictHas (dictSet d k v) k = true := by
  simp [dictHas, dictGet_dictSet_self]

/-- Claim C4: `set(prompt, v, ttl)` immediately followed by `get(prompt)`,
with the backing-store write succeeding, returns `v` (served from the
local dict, which `set` populated). -/
theorem C4_set_then_get (cfg : Config)
    (rset : String → Nat → String → Except RedisError Unit)
    (rds : String → Except RedisError (Option String))
    (st : State) (prompt v : String) (ttl : Nat)
    (h : rset ("cache:" ++ cfg.md5Hex prompt) ttl v = .ok ()) :
    (get cfg rds (set cfg rset st prompt v ttl).2 prompt).outcome = .ok (some v) := by
  have hst : (set cfg rset st prompt v ttl).2.local_cache =
      dictSet st.local_cache (cfg.md5Hex prompt) v := by
    simp [set, h]
  simp [get, hst, dictHas_dictSet_self, dictGet_dictSet_self]

theorem C4_set_then_get_witness :
    (get cfg0 rdsMiss (set cfg0 rsetOk stEmpty "p" "v" 3600).2 "p").outcome =
      .ok (some "v") :=
  C4_set_then_get cfg0 rsetOk rdsMiss stEmpty "p" "v" 3600 rfl

/-- Claim C7: a `get` whose key is absent from the local dict and hashes
to at least one unset filter bit returns `none` with zero redis calls and
leaves the state unchanged. -/
theorem C7_filter_gate (cfg : Config)
    (rds : String → Except RedisError (Option String)) (st : State) (prompt : String)
    (h1 : dictHas st.local_cache (cfg.md5Hex prompt) = false)
    (h2 : ∃ pos ∈ _get_hash_positions cfg (cfg.md5Hex prompt), st.bloom pos = false) :
    (get cfg rds st prompt).outcome = .ok none ∧
      (get cfg rds st prompt).state = st ∧
      (get cfg rds st prompt).redisCalls = 0 := by
  have hm : might_exist cfg st.bloom (cfg.md5Hex prompt) = false := by
    rcases h2 with ⟨pos, hmem, hpos⟩
    rw [might_exist, List.all_eq_false]
    exact ⟨pos, hmem, by simp [hpos]⟩
  simp [get, h1, hm]

theorem C7_filter_gate_witness :
    (get cfg0 rdsMiss stEmpty "p").outcome = .ok none ∧
      (get cfg0 rdsMiss stEmpty "p").state = stEmpty ∧
      (get cfg0 rdsMiss stEmpty "p").redisCalls = 0 :=
  C7_filter_gate cfg0 rdsMiss stEmpty "p" rfl ⟨0, by decide, rfl⟩

/-- Claim C8: `set` runs the filter `add` before the backing-store write,
so when the write raises, `set` returns the error and the filter already
answers true for the key in the post-error state. -/
theorem C8_add_before_write (cfg : Config)
    (rset : String → Nat → String → Except RedisError Unit)
    (st : State) (prompt v : String) (ttl : Nat) (e : RedisError)
    (h : rset ("cache:" ++ cfg.md5Hex prompt) ttl v = .error e) :
    (set cfg rset st prompt v ttl).1 = .error e ∧
      might_exist cfg (set cfg rset st prompt v ttl).2.bloom (cfg.md5Hex prompt) = true := by
  refine ⟨by simp [set, h], ?_⟩
  rw [set_bloom]
  exact might_exist_add_self cfg st.bloom (cfg.md5Hex prompt)

theorem C8_add_before_write_witness :
    (set cfg0 rsetFail stEmpty "p" "v" 3600).1 = .error .connection ∧
      might_exist cfg0 (set cfg0 rsetFail stEmpty "p" "v" 3600).2.bloom
        (cfg0.md5Hex "p") = true :=
  C8_add_before_write cfg0 rsetFail stEmpty "p" "v" 3600 .connection rfl

/-- Claim C9: when `get` reaches redis (local miss, filter says possibly
present) and redis misses, the call returns `none` after exactly one redis
call and the whole state, the local dict included, is unchanged. -/
theorem C9_redis_miss_frame (cfg : Config)
    (rds : String → Except RedisError (Option String)) (st : State) (prompt : String)
    (h1 : dictHas st.local_cache (cfg.md5Hex prompt) = false)
    (h2 : might_exist cfg st.bloom (cfg.md5Hex prompt) = true)
    (h3 : rds ("cache:" ++ cfg.md5Hex prompt) = .ok none) :
    (get cfg rds st prompt).outcome = .ok none ∧
      (get cfg rds st prompt).state = st ∧
      (get cfg rds st prompt).redisCalls = 1 := by
  simp [get, h1, h2, h3]

theorem C9_redis_miss_frame_witness :
    (get cfg0 rdsMiss stAll "p").outcome = .ok none ∧
      (get cfg0 rdsMiss stAll "p").state = stAll ∧
      (get cfg0 rdsMiss stAll "p").redisCalls = 1 :=
  C9_redis_miss_frame cfg0 rdsMiss stAll "p" rfl rfl rfl

/-- Claim C6 evaluation: `get` has no try/except around the redis call, so
a raised network error propagates to the caller instead of a "not cached"
answer (the spec requires the latter). -/
theorem C6_lookup_propagates_error :
    (get cfg0 rdsFail stAll "p").outcome = .error .connection ∧
      (get cfg0 rdsFail stAll "p").outcome ≠ .ok none :=
  ⟨rfl, by rw [show (get cfg0 rdsFail stAll "p").outcome =
      Except.error RedisError.connection from rfl]; simp⟩

theorem C10_add_idempotent_mono_witness :
    add cfg0 (add cfg0 bNone "x") "x" = add cfg0 bNone "x" ∧
      might_exist cfg0 (add cfg0 bAllTrue "x") "y" = true :=
  ⟨(C10_add_idempotent_mono cfg0 bNone "x").1,
    (C10_add_idempotent_mono cfg0 bAllTrue "x").2 "y" (by decide)⟩

/-- CPython hash of a positive finite float of value `num * 2 ^ exp`:
reduce modulo the Mersenne prime `2 ^ 61 - 1`; since `2 ^ 61` is congruent
to 1, the power contributes `2 ^ (exp mod 61)`.  Recorded here to document
the concrete hash values used by the C1 witness. -/
def pyHashFloat (num : Nat) (exp : Int) : Nat :=
  (num * 2 ^ ((exp % 61)).toNat) % (2 ^ 61 - 1)

/-- The IEEE-754 double nearest 0.001 is `1152921504606847 * 2 ^ (-60)`,
so `hash(0.001) = 2305843009213694` in Python. -/
theorem pyHashFloat_0_001 : pyHashFloat 1152921504606847 (-60) = 2305843009213694 := by
  decide

/-- The IEEE-754 double nearest 0.6185 is `696369092382163 * 2 ^ (-50)`,
so `hash(0.6185) = 1426163901198669824` in Python. -/
theorem pyHashFloat_0_6185 : pyHashFloat 696369092382163 (-50) = 1426163901198669824 := by
  decide

theorem tdiv_nonpos_left (a b : Int) (ha : a ≤ 0) (hb : 0 ≤ b) :
    Int.tdiv a b ≤ 0 := by
  have h := Int.tdiv_nonneg (neg_nonneg.mpr ha) hb
  rw [Int.neg_tdiv] at h
  omega

/-- Claim C1 evaluation: the source computes the filter size from the
Python builtin `hash` of the constants instead of natural logarithms.  For
every capacity `n ≥ 1`, every probability `0 < p < 1`, and any positive
integers standing for `hash(p)` and `hash(0.6185)` (the Python hash of a
positive float is always a positive integer), the size the source computes
is nonpositive and strictly below the positive value
`ceil(-n * ln(p) / (ln 2)^2)` the spec requires, and the hash count the
source derives from its own size is also nonpositive, where the spec
requires `k >= 1`. -/
theorem C1_sizing_uses_hash_not_log (n hashP hash06185 : Int) (p : Real)
    (hn : 1 ≤ n) (hhp : 0 < hashP) (hh6 : 0 < hash06185)
    (hp0 : 0 < p) (hp1 : p < 1) :
    _optimal_size n hashP hash06185 ≤ 0 ∧
      0 < spec_optimal_size n p ∧
      _optimal_size n hashP hash06185 < spec_optimal_size n p ∧
      _optimal_hash_count (_optimal_size n hashP hash06185) n ≤ 0 := by
  have hsize : _optimal_size n hashP hash06185 ≤ 0 := by
    apply tdiv_nonpos_left
    · have : 0 ≤ n * hashP := mul_nonneg (by omega) (by omega)
      omega
    · omega
  have hspec : 0 < spec_optimal_size n p := by
    rw [spec_optimal_size, Int.lt_ceil]
    push_cast
    apply div_pos
    · have hlog : Real.log p < 0 := Real.log_neg hp0 hp1
      have hncast : (1 : Real) ≤ (n : Real) := by exact_mod_cast hn
      nlinarith
    · have h2 : 0 < Real.log 2 := Real.log_pos (by norm_num)
      positivity
  refine ⟨hsize, hspec, lt_of_le_of_lt hsize hspec, ?_⟩
  apply tdiv_nonpos_left
  · have := hsize
    omega
  · omega

theorem C1_sizing_uses_hash_not_log_witness :
    _optimal_size 1000000 2305843009213694 1426163901198669824 ≤ 0 ∧
      0 < spec_optimal_size 1000000 (1 / 1000 : Real) ∧
      _optimal_size 1000000 2305843009213694 1426163901198669824 <
        spec_optimal_size 1000000 (1 / 1000 : Real) ∧
      _optimal_hash_count
        (_optimal_size 1000000 2305843009213694 1426163901198669824) 1000000 ≤ 0 :=
  C1_sizing_uses_hash_not_log 1000000 2305843009213694 1426163901198669824
    (1 / 1000) (by norm_num) (by norm_num) (by norm_num) (by norm_num) (by norm_num)

/-- The 101 distinct prompts stored for the C2 evaluation. -/
def opsC2 : List Op :=
  (List.range 101).map (fun i => Op.opSet rsetOk ("p" ++ Nat.repr i) "v" 3600)

/-- Claim C2 evaluation: `set` writes to the local dict with no capacity
check, so 101 stores of distinct prompts against the source bound
`max_local = 100` leave 101 entries in the local cache. -/
theorem C2_set_ignores_capacity :
    cfg0.max_local = 100 ∧
      cfg0.max_local < (run cfg0 stEmpty opsC2).local_cache.length ∧
      (run cfg0 stEmpty opsC2).local_cache.length = 101 := by
  refine ⟨rfl, ?_, ?_⟩ <;> decide

/-- Configuration for the C5 evaluation: local bound of 2 entries. -/
def cfgC5 : Config :=
  { size := 8, hash_count := 2, max_local := 2,
    mmh3Hash := fun _ i => (i : Int), md5Hex := fun s => s }

/-- Starting state for the C5 evaluation: keys "a" then "b" resident (in
that insertion order), every filter bit set. -/
def stC5 : State := { bloom := bAllTrue, local_cache := [("a", "va"), ("b", "vb")] }

/-- Redis contents for the C5 evaluation: only key "c" is stored. -/
def rdsC5 : String → Except RedisError (Option String) :=
  fun s => if s = "cache:c" then .ok (some "vc") else .ok none

/-- The state after `get "a"` (a local hit, which the spec says marks "a"
most recently used) followed by `get "c"` (a redis hit inserted at
capacity). -/
def stC5after : State := (get cfgC5 rdsC5 (get cfgC5 rdsC5 stC5 "a").state "c").state

/-- Claim C5 evaluation: at capacity the source evicts `min(keys)`, the
lexicographically smallest key, not the least recently used entry: after
touching "a" and then inserting "c", the code has evicted "a" (the most
recently used entry) and kept "b" (the least recently used one), so the
final dict is `[("b", "vb"), ("c", "vc")]` where the LRU policy of the
spec requires `[("a", "va"), ("c", "vc")]`. -/
theorem C5_eviction_is_min_key_not_lru :
    dictHas stC5after.local_cache "a" = false ∧
      dictHas stC5after.local_cache "b" = true ∧
      stC5after.local_cache = [("b", "vb"), ("c", "vc")] := by
  refine ⟨?_, ?_, ?_⟩ <;> decide

end BloomCache
